import Mathlib

/-
Verification of the OPTIMADE client in `src/tutorial/local_module/optimade.py`.

The file shallowly embeds the pure logic of the client:
  * the "already versioned" check and the candidate ordering of
    `_get_versioned_base_url` (lines 212-319),
  * the `/versions` response parsing of step 1 of that function (lines 267-288),
  * the query-parameter assembly of `_perform_optimade_query` (lines 76-156),
  * `count_structures` (lines 28-39) and the pagination loop of
    `yield_structures` (lines 42-73).

Network requests are abstracted: every modelled function covers exactly the
computation the source performs before or between HTTP calls, and where a
response is consumed the response body is a parameter of the model.
-/

/-! ## Regular-expression fragment used by `_get_versioned_base_url`

The source checks `re.match(rf".+{version}$", base_url)` (and the same with a
trailing `/`), interpolating the raw version tag into the pattern.  The only
metacharacter occurring in the tags is the dot.  In Python `re` (no flags):

  * `.` matches any single character except `\n`, so `.+` matches one or more
    characters none of which is `\n`;
  * `$` matches at the end of the string, or just before one `\n` that ends
    the string.

Every token of the interpolated pattern matches exactly one character, so
`re.match(".+" ++ pat ++ "$", s)` succeeds exactly when, for `u = s` or for
`u = s` minus an ending `\n` (when `s` ends with one), `u` is longer than
`pat`, the last `pat.length` characters of `u` match `pat` characterwise (a
dot matching any non-`\n` character), and the remaining nonempty prefix of
`u` — consumed by `.+` — contains no `\n`.  That is what `reMatchTail`
computes (on reversed character lists, so suffixes become prefixes). -/

def wildcardCharMatch (p c : Char) : Bool := (p == '.' && c != '\n') || p == c

def wildcardMatch : List Char → List Char → Bool
  | [], [] => true
  | p :: ps, c :: cs => wildcardCharMatch p c && wildcardMatch ps cs
  | _, _ => false

def noNewline (l : List Char) : Bool := l.all fun c => c != '\n'

/-- A match of `.+ pat $` ending exactly at the end of `s`. -/
def tailCheck (pat s : List Char) : Bool :=
  decide (pat.length < s.length) &&
    wildcardMatch pat.reverse (s.reverse.take pat.length) &&
    noNewline (s.reverse.drop pat.length)

def tailMatch (pat s : List Char) : Bool :=
  tailCheck pat s || (s.getLast? == some '\n' && tailCheck pat s.dropLast)

/-- Model of Python `re.match(".+" ++ pat ++ "$", s) is not None` for patterns
whose only metacharacter is the dot. -/
def reMatchTail (pat s : String) : Bool := tailMatch pat.data s.data

/-- Model of Python `needle in hay` for strings (substring test). -/
def strContains (hay needle : String) : Bool :=
  (List.range (hay.data.length + 1)).any fun i => List.isPrefixOf needle.data (hay.data.drop i)

/-! ## `_get_versioned_base_url`: the known version tags and the early return -/

/-- The `version_endpoints` default argument of `_get_versioned_base_url`
(optimade.py lines 215-225), in source order. -/
def version_endpoints : List String :=
  ["/v1", "/v1.1", "/v1.1.0", "/v1", "/v1.0", "/v1.0.1", "/v1", "/v1.0", "/v1.0.0"]

/-- One iteration of the loop at optimade.py lines 241-251: the body for a
single `version`, returning `some` when the function returns early. -/
def checkAlreadyVersionedStep (base_url v : String) : Option String :=
  if strContains base_url v then
    if reMatchTail v base_url then some base_url
    else if reMatchTail (v ++ "/") base_url then some (String.mk base_url.data.dropLast)
    else none
  else none

/-- The whole "already a versioned base URL" phase of `_get_versioned_base_url`
(optimade.py lines 241-251).  A `some` result is returned before any network
request is made; `none` means the function falls through to the `/versions`
request and then to probing. -/
def checkAlreadyVersioned (base_url : String) : Option String :=
  List.findSome? (checkAlreadyVersionedStep base_url) version_endpoints

/-- Python `base_url.endswith("/")`. -/
def endsWithSlash (s : String) : Bool := s.data.getLast? == some '/'

/-- `base_url + version[1:] if base_url.endswith("/") else base_url + version`
(optimade.py lines 284-288 and 294-296). -/
def joinVersion (base_url version : String) : String :=
  if endsWithSlash base_url then base_url ++ String.mk (version.data.drop 1)
  else base_url ++ version

/-- The candidate versioned URLs probed by step 2 of `_get_versioned_base_url`
(optimade.py lines 293-296), in the order in which `<candidate>/info` is
requested. -/
def probeCandidates (base_url : String) : List String :=
  version_endpoints.map (joinVersion base_url)

/-! ## `_get_versioned_base_url` step 1: parsing the `/versions` response

The source does `versions = {}.fromkeys(keys, [])` and then appends into
`versions[key]`.  In Python `dict.fromkeys(keys, [])` binds every key to the
same single list object, so all appends land in one shared list.  The faithful
model therefore carries the key list together with that one shared list. -/

/-- Model of Python `s.split(",")` (used at optimade.py lines 273 and 276):
splitting at every comma, `""` giving `[""]`. -/
def splitCommaAux : List Char → List Char → List String
  | [], acc => [String.mk acc.reverse]
  | c :: rest, acc =>
    if c == ',' then String.mk acc.reverse :: splitCommaAux rest []
    else splitCommaAux rest (c :: acc)

def splitComma (s : String) : List String := splitCommaAux s.data []

/-- Faithful model of optimade.py lines 273-278: the parsed header keys
together with the single shared value list that all keys alias. -/
def parseVersionsShared (csvLines : List String) : List String × List String :=
  match csvLines with
  | [] => ([], [])
  | header :: rows =>
    let keys := splitComma header
    (keys, List.foldl (fun acc line => acc ++ (keys.zip (splitComma line)).map Prod.snd) [] rows)

/-- `versions.get(key, [])` on the parsed structure: every present key yields
the one shared list. -/
def versionsLookup (parsed : List String × List String) (key : String) : List String :=
  if key ∈ parsed.1 then parsed.2 else []

/-- The selection loop of optimade.py lines 280-288: the first entry of
`versions.get("version", [])` whose `/v`-prefixed form is a known tag gives
the returned URL. -/
def selectAdvertisedVersion (base_url : String) (csvLines : List String) : Option String :=
  List.findSome?
    (fun version =>
      let version_path := "/v" ++ version
      if version_path ∈ version_endpoints then some (joinVersion base_url version_path)
      else none)
    (versionsLookup (parseVersionsShared csvLines) "version")

/-- Modelled from the spec: "Parse rows into a mapping of column name →
ordered list of values" (spec section 4.1 step 2).  Unlike the source, each
column name is mapped to the values of its own column. -/
def parseVersionsByColumn (csvLines : List String) (key : String) : List String :=
  match csvLines with
  | [] => []
  | header :: rows =>
    let keys := splitComma header
    match keys.indexOf? key with
    | none => []
    | some i => rows.filterMap fun line => (splitComma line).get? i

/-- The selection loop of optimade.py lines 280-288 run over the
spec-described per-column parse instead of the source's shared-list parse. -/
def selectAdvertisedVersionSpec (base_url : String) (csvLines : List String) : Option String :=
  List.findSome?
    (fun version =>
      let version_path := "/v" ++ version
      if version_path ∈ version_endpoints then some (joinVersion base_url version_path)
      else none)
    (parseVersionsByColumn csvLines "version")

/-- `endsWithTag b` holds when `b` literally ends with a known version tag,
with or without a trailing slash: the hypothesis of spec section 4.1 step 1. -/
def endsWithTag (b : String) : Bool :=
  version_endpoints.any fun t =>
    List.isPrefixOf t.data.reverse b.data.reverse ||
      List.isPrefixOf (t ++ "/").data.reverse b.data.reverse

/-! ## `_perform_optimade_query`: parameter assembly (optimade.py lines 76-156)

The function builds the `queries` dict, URL-encodes it and only then issues
the single HTTP GET.  `assembledQuery` is that pre-network computation: it
returns the `url_path` together with the `queries` dict (as an insertion
ordered association list; all inserted keys are distinct), or the message of
the `TypeError` raised at line 106.  A `.error` result means the exception is
raised before `requests.get` is ever reached. -/

/-- A caller-supplied Python value for the dynamically typed `filter_str`
argument: the strings the annotation asks for plus representative non-string
values a caller can pass. -/
inductive PyVal where
  | pynone
  | pystr (s : String)
  | pyint (n : Int)
  | pydict (entries : List (String × String))
deriving DecidableEq, Repr

/-- Python truthiness of a `PyVal`. -/
def PyVal.truthy : PyVal → Bool
  | .pynone => false
  | .pystr s => s != ""
  | .pyint n => n != 0
  | .pydict l => !l.isEmpty

/-- Whether the value is a `str` (Python `isinstance(filter_str, str)`). -/
def PyVal.isStr : PyVal → Bool
  | .pystr _ => true
  | _ => false

/-- The keyword arguments of `_perform_optimade_query`, with the source's
default values (optimade.py lines 76-87). -/
structure QueryArgs where
  base_url : String
  endpoint : Option String := none
  filter_str : PyVal := .pystr ""
  sort : Option (Sum String (List String)) := none
  response_format : Option String := none
  response_fields : Option String := none
  email_address : Option String := none
  page_limit : Option Int := some 1
  page_offset : Option Int := none
  page_number : Option Int := none
deriving DecidableEq, Repr

/-- Python `s.strip("/")`: drop leading and trailing slashes. -/
def stripSlashes (s : String) : String :=
  String.mk (((s.data.dropWhile (· == '/')).reverse.dropWhile (· == '/')).reverse)

/-- Endpoint normalization, optimade.py lines 92-96: `None` becomes
`"/structures"`, a nonempty string is reslashed, the empty string stays. -/
def normEndpoint : Option String → String
  | none => "/structures"
  | some e => if e != "" then "/" ++ stripSlashes e else ""

/-- The default `response_fields` list injected for the structures endpoint,
exactly the list literal of optimade.py lines 122-139. -/
def default_response_fields : List String :=
  ["structure_features",
   "chemical_formula_anonymous",
   "chemical_formula_descriptive",
   "chemical_formula_hill",
   "chemical_formula_reduced",
   "elements",
   "nsites",
   "lattice_vectors",
   "species",
   "cartesian_site_positions",
   "species_at_sites",
   "nelements",
   "nperiodic_dimensions",
   "last_modified",
   "elements_ratios",
   "dimension_types"]

/-- The pure prefix of `_perform_optimade_query` (optimade.py lines 90-156):
the `url_path` and the `queries` dict it would URL-encode, or the raised
`TypeError`'s message. -/
def assembledQuery (a : QueryArgs) : Except String (String × List (String × String)) :=
  let endpoint := normEndpoint a.endpoint
  let url_path :=
    if endsWithSlash a.base_url then a.base_url ++ String.mk (endpoint.data.drop 1)
    else a.base_url ++ endpoint
  let filterPart : Except String (List (String × String)) :=
    if a.filter_str.truthy then
      match a.filter_str with
      | .pystr s => .ok [("filter", s)]
      | _ => .error "'filter_str' must be either a dict or a str"
    else .ok []
  match filterPart with
  | .error e => .error e
  | .ok fq =>
    let sortPart :=
      match a.sort with
      | none => []
      | some (Sum.inl s) => [("sort", s)]
      | some (Sum.inr l) => [("sort", String.intercalate "," l)]
    let fmt := match a.response_format with | none => "json" | some f => f
    let fieldsPart :=
      match a.response_fields with
      | some fields => [("response_fields", fields)]
      | none =>
        if endpoint == "/structures" then
          [("response_fields", String.intercalate "," default_response_fields)]
        else []
    let emailPart :=
      match a.email_address with | none => [] | some e => [("email_address", e)]
    let limitPart :=
      match a.page_limit with | none => [] | some n => [("page_limit", toString n)]
    let offsetPart :=
      match a.page_offset with | none => [] | some n => [("page_offset", toString n)]
    let numberPart :=
      match a.page_number with | none => [] | some n => [("page_number", toString n)]
    .ok (url_path,
      fq ++ sortPart ++ [("response_format", fmt)] ++ fieldsPart ++ emailPart
        ++ limitPart ++ offsetPart ++ numberPart)

/-! ## `count_structures` (optimade.py lines 28-39)

The provider's JSON response is abstracted as the function `respond`,
mapping the request (its `url_path` and `queries` dict) to the response; the
model returns the produced count together with the list of requests issued,
so that "exactly one call" is part of the result. -/

/-- The parts of an OPTIMADE JSON response the client reads. -/
structure OptimadeResponse where
  recs : List (List (String × String))
  data_returned : Int
  more_data_available : Bool
deriving Repr

/-- `count_structures` (optimade.py lines 28-39): one query with
`page_limit=1` and `response_fields=""`, answer read from
`meta.data_returned`.  The pandas provider lookup is abstracted into the
`base_url` argument. -/
def count_structures (respond : String → List (String × String) → OptimadeResponse)
    (base_url filter_str : String) :
    Except String (Int × List (List (String × String))) :=
  match assembledQuery
      (QueryArgs.mk base_url none (.pystr filter_str) none none (some "") none (some 1)
        none none) with
  | .error e => .error e
  | .ok (url, q) => .ok ((respond url q).data_returned, [q])

/-! ## `yield_structures` (optimade.py lines 42-73)

The stream is modelled with the query executor abstracted as `fetch batch
offset` (the source passes `page_limit=batch, page_offset=offset`), the
record converter (`get_aiida_structure_data ∘ StructureResource`, line 67) as
the fallible function `convert`, and the `while True` loop driven by explicit
fuel.  The result collects the yielded records, the `page_offset` of every
issued fetch, the error of a conversion exception escaping the generator (the
source suppresses only `ConversionWarning` warnings, not exceptions), the
final value of `offset`, and whether the fuel ran out before the loop ended. -/

/-- One page of a paginated response: `data["data"]` and
`data["meta"]["more_data_available"]`. -/
structure Page (α : Type) where
  recs : List α
  more_data_available : Bool

/-- Everything observable about one run of the generator. -/
structure StreamResult (β ε : Type) where
  yielded : List β
  fetch_offsets : List Nat
  stream_error : Option ε
  final_offset : Nat
  out_of_fuel : Bool
deriving DecidableEq, Repr

/-- `offset >= max_results` guarded by `max_results is not None`
(optimade.py line 70). -/
def maxReached : Option Nat → Nat → Bool
  | none, _ => false
  | some m, off => m ≤ off

/-- The `for entry in data["data"]` body (optimade.py lines 63-71): yields
converted records, advancing `offset` by one per yielded record; a conversion
exception aborts with the entries before it already yielded; reaching
`max_results` returns.  Result: (yielded, new offset, loop left early,
escaped exception). -/
def processPage {α β ε : Type} (convert : α → Except ε β) (max_results : Option Nat) :
    List α → Nat → List β × Nat × Bool × Option ε
  | [], off => ([], off, false, none)
  | e :: rest, off =>
    match convert e with
    | .error ex => ([], off, true, some ex)
    | .ok b =>
      if maxReached max_results (off + 1) then ([b], off + 1, true, none)
      else
        let r := processPage convert max_results rest (off + 1)
        (b :: r.1, r.2.1, r.2.2.1, r.2.2.2)

/-- The `while True` loop of optimade.py lines 55-73, with fuel. -/
def yieldLoop {α β ε : Type} (fetch : Nat → Nat → Page α) (convert : α → Except ε β)
    (batch : Nat) (max_results : Option Nat) : Nat → Nat → StreamResult β ε
  | 0, off => ⟨[], [], none, off, true⟩
  | fuel + 1, off =>
    let page := fetch batch off
    let pr := processPage convert max_results page.recs off
    if pr.2.2.1 then ⟨pr.1, [off], pr.2.2.2, pr.2.1, false⟩
    else if page.more_data_available then
      let r := yieldLoop fetch convert batch max_results fuel pr.2.1
      ⟨pr.1 ++ r.yielded, off :: r.fetch_offsets, r.stream_error, r.final_offset, r.out_of_fuel⟩
    else ⟨pr.1, [off], none, pr.2.1, false⟩

/-- `yield_structures` (optimade.py lines 42-73): the loop started at
`offset = 0`. -/
def yield_structures {α β ε : Type} (fetch : Nat → Nat → Page α)
    (convert : α → Except ε β) (batch : Nat) (max_results : Option Nat) (fuel : Nat) :
    StreamResult β ε :=
  yieldLoop fetch convert batch max_results fuel 0

/-! ## Helper lemmas -/

theorem wildcardMatch_self : ∀ l : List Char, wildcardMatch l l = true
  | [] => rfl
  | c :: cs => by simp [wildcardMatch, wildcardCharMatch, wildcardMatch_self cs]

theorem tailMatch_append_self (pre pat : List Char) (hpre : pre ≠ [])
    (hnl : noNewline pre = true) : tailMatch pat (pre ++ pat) = true := by
  have hcheck : tailCheck pat (pre ++ pat) = true := by
    unfold tailCheck
    have h1 : pat.length < (pre ++ pat).length := by
      have := List.length_pos.mpr hpre
      simp only [List.length_append]
      omega
    have h2 : (pre ++ pat).reverse.take pat.length = pat.reverse := by
      rw [List.reverse_append, ← List.length_reverse pat]
      exact List.take_left _ _
    have h3 : (pre ++ pat).reverse.drop pat.length = pre.reverse := by
      rw [List.reverse_append, ← List.length_reverse pat]
      exact List.drop_left _ _
    have h4 : noNewline pre.reverse = true := by
      unfold noNewline at hnl ⊢
      rw [List.all_eq_true] at hnl ⊢
      intro x hx
      exact hnl x (List.mem_reverse.mp hx)
    rw [h2, h3]
    have h5 := List.length_pos.mpr hpre
    simp [h1, wildcardMatch_self, h4, h5]
  simp [tailMatch, hcheck]

theorem tailMatch_head_mismatch (pat s : List Char) (p c : Char)
    (hp : pat.reverse.head? = some p) (hs : s.reverse.head? = some c)
    (hpc : wildcardCharMatch p c = false) (hcn : c ≠ '\n') :
    tailMatch pat s = false := by
  have hA : tailCheck pat s = false := by
    unfold tailCheck
    cases hpr : pat.reverse with
    | nil => rw [hpr] at hp; cases hp
    | cons p0 pr =>
      cases hsr : s.reverse with
      | nil => rw [hsr] at hs; cases hs
      | cons c0 sr =>
        rw [hpr] at hp
        rw [hsr] at hs
        simp only [List.head?_cons, Option.some.injEq] at hp hs
        subst hp
        subst hs
        have hl : pat.length = pr.length + 1 := by
          rw [← List.length_reverse pat, hpr]
          simp
        rw [hl]
        simp [List.take_succ_cons, wildcardMatch, hpc]
  have hB : (s.getLast? == some '\n') = false := by
    have hg : s.getLast? = some c := by
      rw [← List.head?_reverse]
      exact hs
    rw [hg]
    exact beq_eq_false_iff_ne.mpr (by simp [hcn])
  unfold tailMatch
  rw [hA, hB]
  rfl

theorem findSome?_eq_of_agree {α β : Type} (f : α → Option β) (b : β) :
    ∀ l : List α, (∀ x ∈ l, f x = none ∨ f x = some b) →
      (∃ x ∈ l, f x = some b) → l.findSome? f = some b
  | [] => fun _ hex => absurd hex (by simp)
  | a :: l => fun hall hex => by
    rcases hall a (by simp) with ha | ha
    · have hex2 : ∃ x ∈ l, f x = some b := by
        rcases hex with ⟨x, hx, hfx⟩
        rcases List.mem_cons.mp hx with rfl | hx
        · rw [ha] at hfx; cases hfx
        · exact ⟨x, hx, hfx⟩
      simp only [List.findSome?_cons, ha]
      exact findSome?_eq_of_agree f b l (fun x hx => hall x (by simp [hx])) hex2
    · simp [List.findSome?_cons, ha]

theorem string_data_ne_nil {s : String} (h : s ≠ "") : s.data ≠ [] :=
  fun hd => h (String.ext (hd.trans rfl))

theorem strContains_of_parts (hay needle : String) (pre suf : List Char)
    (h : hay.data = pre ++ (needle.data ++ suf)) : strContains hay needle = true := by
  unfold strContains
  rw [List.any_eq_true]
  refine ⟨pre.length, List.mem_range.mpr ?_, ?_⟩
  · rw [h]
    simp only [List.length_append]
    omega
  · rw [h, List.drop_left, List.isPrefixOf_iff_prefix]
    exact List.prefix_append _ _

theorem reverse_head?_append (x y : List Char) (c : Char)
    (hy : y.reverse.head? = some c) : (x ++ y).reverse.head? = some c := by
  rw [List.reverse_append]
  cases hyr : y.reverse with
  | nil => rw [hyr] at hy; cases hy
  | cons c0 sr =>
    rw [hyr] at hy
    simp only [List.head?_cons, Option.some.injEq] at hy
    subst hy
    simp

theorem tag_ends_digit :
    ∀ v ∈ version_endpoints,
      v.data.reverse.head? = some '1' ∨ v.data.reverse.head? = some '0' := by
  decide

theorem append_slash_data_reverse_head (v : String) :
    (v ++ "/").data.reverse.head? = some '/' := by
  rw [String.data_append, List.reverse_append]
  rfl

theorem step_of_base_ends (b v : String) (c : Char)
    (hb : b.data.reverse.head? = some c) (hc : c ≠ '/') (hcn : c ≠ '\n') :
    checkAlreadyVersionedStep b v = none ∨ checkAlreadyVersionedStep b v = some b := by
  unfold checkAlreadyVersionedStep
  split_ifs with h1 h2 h3
  · exact Or.inr rfl
  · exfalso
    have hfalse : reMatchTail (v ++ "/") b = false := by
      refine tailMatch_head_mismatch _ _ '/' c ?_ hb ?_ hcn
      · rw [String.data_append, List.reverse_append]
        rfl
      · have hd1 : ('/' == '.') = false := by decide
        have hd2 : ('/' == c) = false := beq_eq_false_iff_ne.mpr (Ne.symm hc)
        simp [wildcardCharMatch, hd1, hd2]
    rw [h3] at hfalse
    cases hfalse
  · exact Or.inl rfl
  · exact Or.inl rfl

theorem step_of_base_slash (b v : String) (d : Char)
    (hb : b.data.reverse.head? = some '/')
    (hv : v.data.reverse.head? = some d) (hd : wildcardCharMatch d '/' = false) :
    checkAlreadyVersionedStep b v = none ∨
      checkAlreadyVersionedStep b v = some (String.mk b.data.dropLast) := by
  unfold checkAlreadyVersionedStep
  split_ifs with h1 h2 h3
  · exfalso
    have hfalse : reMatchTail v b = false :=
      tailMatch_head_mismatch _ _ d '/' hv hb hd (by decide)
    rw [h2] at hfalse
    cases hfalse
  · exact Or.inr rfl
  · exact Or.inl rfl
  · exact Or.inl rfl

theorem step_self_of_ne_empty (s t : String) (hs : s.data ≠ [])
    (hnl : noNewline s.data = true) :
    checkAlreadyVersionedStep (s ++ t) t = some (s ++ t) := by
  unfold checkAlreadyVersionedStep
  have hc : strContains (s ++ t) t = true :=
    strContains_of_parts _ _ s.data [] (by simp [String.data_append])
  have hm : reMatchTail t (s ++ t) = true := by
    have h := tailMatch_append_self s.data t.data hs hnl
    unfold reMatchTail
    rw [String.data_append]
    exact h
  simp [hc, hm]

theorem step_self_slash (s t : String) (hs : s.data ≠ [])
    (hnl : noNewline s.data = true) (d : Char)
    (hv : t.data.reverse.head? = some d) (hd : wildcardCharMatch d '/' = false) :
    checkAlreadyVersionedStep (s ++ t ++ "/") t = some (s ++ t) := by
  unfold checkAlreadyVersionedStep
  have hdata : (s ++ t ++ "/").data = s.data ++ (t.data ++ ['/']) := by
    simp [String.data_append]
  have hc : strContains (s ++ t ++ "/") t = true :=
    strContains_of_parts _ _ s.data ['/'] hdata
  have hb : (s ++ t ++ "/").data.reverse.head? = some '/' :=
    append_slash_data_reverse_head (s ++ t)
  have h1 : reMatchTail t (s ++ t ++ "/") = false :=
    tailMatch_head_mismatch _ _ d '/' hv hb hd (by decide)
  have h2 : reMatchTail (t ++ "/") (s ++ t ++ "/") = true := by
    have h := tailMatch_append_self s.data (t.data ++ ['/']) hs hnl
    unfold reMatchTail
    rw [String.data_append t "/", hdata]
    exact h
  have hdrop : String.mk (s ++ t ++ "/").data.dropLast = s ++ t := by
    refine String.ext ?_
    rw [String.data_append (s ++ t) "/"]
    exact List.dropLast_concat
  have hmk : String.mk (s.data ++ t.data) = s ++ t :=
    String.ext (by rw [String.data_append])
  simp [hc, h1, h2, hdrop, hmk]

theorem checkAlreadyVersioned_appended (t : String) (ht : t ∈ version_endpoints)
    (s : String) (hs : s ≠ "") (hnl : noNewline s.data = true) :
    checkAlreadyVersioned (s ++ t) = some (s ++ t) := by
  have hsd := string_data_ne_nil hs
  have hbase : ∃ c, (s ++ t).data.reverse.head? = some c ∧ c ≠ '/' ∧ c ≠ '\n' := by
    rcases tag_ends_digit t ht with h | h
    · exact ⟨'1', by rw [String.data_append]; exact reverse_head?_append _ _ _ h,
        by decide, by decide⟩
    · exact ⟨'0', by rw [String.data_append]; exact reverse_head?_append _ _ _ h,
        by decide, by decide⟩
  rcases hbase with ⟨c, hb, hc, hcn⟩
  refine findSome?_eq_of_agree _ _ _
    (fun v _ => step_of_base_ends (s ++ t) v c hb hc hcn) ?_
  exact ⟨t, ht, step_self_of_ne_empty s t hsd hnl⟩

theorem checkAlreadyVersioned_appended_slash (t : String) (ht : t ∈ version_endpoints)
    (s : String) (hs : s ≠ "") (hnl : noNewline s.data = true) :
    checkAlreadyVersioned (s ++ t ++ "/") = some (s ++ t) := by
  have hsd := string_data_ne_nil hs
  have hb : (s ++ t ++ "/").data.reverse.head? = some '/' :=
    append_slash_data_reverse_head (s ++ t)
  have hdrop : String.mk (s ++ t ++ "/").data.dropLast = s ++ t := by
    refine String.ext ?_
    rw [String.data_append (s ++ t) "/"]
    exact List.dropLast_concat
  have key : ∀ v ∈ version_endpoints,
      checkAlreadyVersionedStep (s ++ t ++ "/") v = none ∨
        checkAlreadyVersionedStep (s ++ t ++ "/") v = some (s ++ t) := by
    intro v hv
    have hshape : checkAlreadyVersionedStep (s ++ t ++ "/") v = none ∨
        checkAlreadyVersionedStep (s ++ t ++ "/") v =
          some (String.mk (s ++ t ++ "/").data.dropLast) := by
      rcases tag_ends_digit v hv with h | h
      · exact step_of_base_slash _ v '1' hb h (by decide)
      · exact step_of_base_slash _ v '0' hb h (by decide)
    rw [hdrop] at hshape
    exact hshape
  refine findSome?_eq_of_agree _ _ _ key ?_
  refine ⟨t, ht, ?_⟩
  rcases tag_ends_digit t ht with h | h
  · exact step_self_slash s t hsd hnl '1' h (by decide)
  · exact step_self_slash s t hsd hnl '0' h (by decide)

theorem processPage_all_ok {α β ε : Type} (convert : α → Except ε β) (g : α → β)
    (d : List α) : ∀ off : Nat, (∀ x ∈ d, convert x = .ok (g x)) →
      processPage convert none d off = (d.map g, off + d.length, false, none) := by
  induction d with
  | nil => intro off _; simp [processPage]
  | cons a d ih =>
    intro off h
    have ha := h a (by simp)
    have hd : ∀ x ∈ d, convert x = .ok (g x) := fun x hx => h x (by simp [hx])
    simp [processPage, ha, maxReached, ih (off + 1) hd]
    omega

theorem processPage_error_prefix {α β ε : Type} (convert : α → Except ε β) (g : α → β)
    (bad : α) (e : ε) (hbad : convert bad = .error e) (pre : List α) :
    ∀ (post : List α) (off : Nat), (∀ x ∈ pre, convert x = .ok (g x)) →
      processPage convert none (pre ++ bad :: post) off =
        (pre.map g, off + pre.length, true, some e) := by
  induction pre with
  | nil => intro post off _; simp [processPage, hbad]
  | cons a pre ih =>
    intro post off h
    have ha := h a (by simp)
    have hp : ∀ x ∈ pre, convert x = .ok (g x) := fun x hx => h x (by simp [hx])
    simp [processPage, ha, maxReached, ih post (off + 1) hp]
    omega

/-! ## Claim theorems -/

/-- Scenario for claim C1: the converter that fails on record 2. -/
def convC1 : Nat → Except Unit Nat := fun k => if k == 2 then .error () else .ok k

/-- Scenario for claim C1: a single page holding records 1, 2, 3. -/
def fetchC1 : Nat → Nat → Page Nat := fun _ _ => ⟨[1, 2, 3], false⟩

/-- C1, counterexample.  On a page of 3 records whose second fails conversion,
the stream does NOT yield the two convertible records with the offset advanced
by 3: it yields only record 1, the conversion error escapes the generator
(aborting the stream), and the offset has advanced only to 1.  The source
(optimade.py lines 63-71) suppresses only `ConversionWarning` warnings; a
conversion exception propagates. -/
theorem C1_counterexample :
    yield_structures fetchC1 convC1 3 none 5 = ⟨[1], [0], some (), 1, false⟩ ∧
    (yield_structures fetchC1 convC1 3 none 5).yielded.length ≠ 2 ∧
    (yield_structures fetchC1 convC1 3 none 5).final_offset ≠ 3 := by
  refine ⟨rfl, by decide, by decide⟩

/-- C1 (amended): a conversion failure is not suppressed.  If the first page
starts with convertible records followed by one whose conversion raises, the
stream yields exactly the convertible prefix, the error escapes (ending the
stream), the offset has advanced only past the yielded records, and no
further page is fetched. -/
theorem C1_conversion_error_aborts_stream {α β ε : Type} (convert : α → Except ε β)
    (g : α → β) (e : ε) (bad : α) (pre post : List α)
    (fetch : Nat → Nat → Page α) (batch : Nat) (m : Bool)
    (hpre : ∀ x ∈ pre, convert x = .ok (g x))
    (hbad : convert bad = .error e)
    (hfetch : fetch batch 0 = ⟨pre ++ bad :: post, m⟩)
    (fuel : Nat) :
    yield_structures fetch convert batch none (fuel + 1) =
      ⟨pre.map g, [0], some e, pre.length, false⟩ := by
  unfold yield_structures yieldLoop
  rw [hfetch]
  have hp := processPage_error_prefix convert g bad e hbad pre post 0 hpre
  simp [hp]

/-- Witness for C1: the amended theorem applied to the concrete page
`[1, 2, 3]` with conversion failing on 2. -/
theorem C1_conversion_error_aborts_stream_witness :
    yield_structures (fun _ _ => Page.mk [1, 2, 3] true) convC1 3 none 1 =
      ⟨[1], [0], some (), 1, false⟩ :=
  C1_conversion_error_aborts_stream convC1 id () 2 [1] [3]
    (fun _ _ => Page.mk [1, 2, 3] true) 3 true
    (fun x hx => by rw [List.mem_singleton] at hx; subst hx; rfl) rfl rfl 0

/-- C7, counterexample.  With `max_results = 0` (a set maximum of zero) the
stream still yields one record before the bound is checked, so it does not
terminate exactly when the running count reaches the caller's maximum: the
check at optimade.py line 70 runs only after a yield. -/
theorem C7_counterexample :
    yield_structures (fun _ _ => Page.mk [7] false)
        (fun k : Nat => (Except.ok k : Except Unit Nat)) 1 (some 0) 5 =
      ⟨[7], [0], none, 1, false⟩ ∧
    (yield_structures (fun _ _ => Page.mk [7] false)
        (fun k : Nat => (Except.ok k : Except Unit Nat)) 1 (some 0) 5).yielded.length = 1 := by
  refine ⟨rfl, rfl⟩

/-- C7 (amended): after each yielded record the stream returns when
`max_results` is set and the new offset has reached it, and after an
exhausted page it stops when that page reported no more data.  In particular,
with `max_results = 5`, batch 2 and a provider always reporting more data,
exactly the 5 records 0..4 are yielded, with fetches only at offsets 0, 2, 4
(none at or beyond 5), independent of remaining fuel; and a first page with
`more_data_available = false` ends the stream after one fetch with the whole
page yielded. -/
theorem C7_stream_termination :
    (∀ n : Nat,
      yield_structures (fun _ off => Page.mk [off, off + 1] true)
          (fun k : Nat => (Except.ok k : Except Unit Nat)) 2 (some 5) (n + 3) =
        ⟨[0, 1, 2, 3, 4], [0, 2, 4], none, 5, false⟩) ∧
    (∀ (d : List Nat) (n : Nat),
      yield_structures (fun _ _ => Page.mk d false)
          (fun k : Nat => (Except.ok k : Except Unit Nat)) d.length none (n + 1) =
        ⟨d, [0], none, d.length, false⟩) := by
  constructor
  · intro n
    rfl
  · intro d n
    unfold yield_structures yieldLoop
    have hp : processPage (fun k : Nat => (Except.ok k : Except Unit Nat)) none d 0 =
        (d.map id, 0 + d.length, false, none) :=
      processPage_all_ok _ id d 0 (fun x _ => rfl)
    simp [hp]

/-- C2, counterexample.  Supplying both `page_offset` and `page_number` is not
rejected: the assembly succeeds and the query sent to the network contains
both parameters (there is no mutual-exclusion check anywhere in
optimade.py lines 90-156). -/
theorem C2_counterexample :
    assembledQuery (QueryArgs.mk "http://x" none (.pystr "") none none none none
        (some 1) (some 2) (some 3)) =
      .ok ("http://x/structures",
        [("response_format", "json"),
         ("response_fields", String.intercalate "," default_response_fields),
         ("page_limit", "1"), ("page_offset", "2"), ("page_number", "3")]) := rfl

/-- C2 (amended): a call with both `page_offset` and `page_number` set is not
rejected; both parameters are simply included in the assembled query (in that
order), and the request is then issued. -/
theorem C2_both_pagination_params_included (po pn : Int) :
    ∃ url q,
      assembledQuery (QueryArgs.mk "http://x" none (.pystr "") none none none none
          (some 1) (some po) (some pn)) = .ok (url, q) ∧
      ("page_offset", toString po) ∈ q ∧ ("page_number", toString pn) ∈ q := by
  refine ⟨_, _, rfl, ?_, ?_⟩ <;> simp

/-- C3, counterexample.  The default field list injected for the structures
endpoint has 16 entries, not 15; and with the explicit empty string
`response_fields=""` the parameter does appear in the assembled query (with
an empty value, giving `response_fields=` after URL encoding), rather than
being absent (optimade.py lines 118-119 only test `is not None`). -/
theorem C3_counterexample :
    default_response_fields.length = 16 ∧
    assembledQuery (QueryArgs.mk "http://x" none (.pystr "") none none (some "") none
        (some 1) none none) =
      .ok ("http://x/structures",
        [("response_format", "json"), ("response_fields", ""), ("page_limit", "1")]) :=
  ⟨rfl, rfl⟩

/-- C3 (amended): with `response_fields` unset and the default endpoint, the
assembled query maps `response_fields` to the fixed comma-joined list of the
16 structure attribute names of optimade.py lines 122-139; with the explicit
empty string it maps `response_fields` to the empty value instead (still
distinguished from the unset case, where the nonempty default list is
injected). -/
theorem C3_response_fields_assembly :
    assembledQuery (QueryArgs.mk "http://x" none (.pystr "") none none none none
        (some 1) none none) =
      .ok ("http://x/structures",
        [("response_format", "json"),
         ("response_fields", String.intercalate "," default_response_fields),
         ("page_limit", "1")]) ∧
    assembledQuery (QueryArgs.mk "http://x" none (.pystr "") none none (some "") none
        (some 1) none none) =
      .ok ("http://x/structures",
        [("response_format", "json"), ("response_fields", ""), ("page_limit", "1")]) ∧
    default_response_fields =
      ["structure_features", "chemical_formula_anonymous", "chemical_formula_descriptive",
       "chemical_formula_hill", "chemical_formula_reduced", "elements", "nsites",
       "lattice_vectors", "species", "cartesian_site_positions", "species_at_sites",
       "nelements", "nperiodic_dimensions", "last_modified", "elements_ratios",
       "dimension_types"] ∧
    String.intercalate "," default_response_fields ≠ "" :=
  ⟨rfl, rfl, rfl, by decide⟩

/-- C4: evaluation of the `/versions` parsing at the failing input
`["version,api", "7,1"]` (header row with a second column).  Because
`{}.fromkeys(keys, [])` makes every key alias one shared list, the parsed
"version" entry is `["7", "1"]` — it absorbs the `api` column's value — and
the selection loop then returns `http://x/v1` although the only advertised
version is 7.  Under the spec's per-column parsing the "version" column is
`["7"]` and no URL would be selected. -/
theorem C4_shared_column_list_divergence :
    parseVersionsShared ["version,api", "7,1"] = (["version", "api"], ["7", "1"]) ∧
    selectAdvertisedVersion "http://x" ["version,api", "7,1"] = some "http://x/v1" ∧
    parseVersionsByColumn ["version,api", "7,1"] "version" = ["7"] ∧
    selectAdvertisedVersionSpec "http://x" ["version,api", "7,1"] = none :=
  ⟨rfl, rfl, rfl, rfl⟩

/-- C5, counterexample.  The first candidate probed by the fallback loop for
base URL `http://x` is `http://x/v1` — the bare major tag — not the
most-specific patch tag `http://x/v1.1.0` the claim requires. -/
theorem C5_counterexample :
    (probeCandidates "http://x").head? = some "http://x/v1" ∧
    "http://x/v1" ≠ "http://x" ++ "/v1.1.0" := ⟨rfl, by decide⟩

/-- C5 (amended): the fallback probing tries the known tags in the fixed
source order `/v1, /v1.1, /v1.1.0, /v1, /v1.0, /v1.0.1, /v1, /v1.0, /v1.0.0`
— bare major first, then increasingly specific tags, with intentional
duplicates — so the first candidate probed is the bare major tag. -/
theorem C5_probe_order :
    version_endpoints =
      ["/v1", "/v1.1", "/v1.1.0", "/v1", "/v1.0", "/v1.0.1", "/v1", "/v1.0", "/v1.0.0"] ∧
    probeCandidates "http://x" =
      ["http://x/v1", "http://x/v1.1", "http://x/v1.1.0", "http://x/v1", "http://x/v1.0",
       "http://x/v1.0.1", "http://x/v1", "http://x/v1.0", "http://x/v1.0.0"] :=
  ⟨rfl, rfl⟩

/-- C6, counterexample.  Two base URLs ending with the known tag `/v1` are
not returned by the resolver, which instead falls through to network
requests: the bare tag `"/v1"` itself (the interpolated pattern `.+/v1$`
needs at least one character before the tag) and `"a\nb/v1"` (the `.+` of the
pattern never matches the newline). -/
theorem C6_counterexample :
    endsWithTag "/v1" = true ∧ checkAlreadyVersioned "/v1" = none ∧
    endsWithTag "a\nb/v1" = true ∧ checkAlreadyVersioned "a\nb/v1" = none :=
  ⟨rfl, rfl, rfl, rfl⟩

/-- C6 (amended): for every known version tag and every base URL made of a
nonempty, newline-free prefix followed by that ending tag (with or without a
trailing slash), the resolver returns the URL with any trailing slash
stripped, without issuing any network request, and doing so is idempotent. -/
theorem C6_already_versioned_resolution (t : String) (ht : t ∈ version_endpoints)
    (s : String) (hs : s ≠ "") (hnl : noNewline s.data = true) :
    checkAlreadyVersioned (s ++ t) = some (s ++ t) ∧
    checkAlreadyVersioned (s ++ t ++ "/") = some (s ++ t) ∧
    ∀ r, checkAlreadyVersioned (s ++ t ++ "/") = some r →
      checkAlreadyVersioned r = some r := by
  refine ⟨checkAlreadyVersioned_appended t ht s hs hnl,
    checkAlreadyVersioned_appended_slash t ht s hs hnl, ?_⟩
  intro r hr
  rw [checkAlreadyVersioned_appended_slash t ht s hs hnl] at hr
  injection hr with hr
  rw [← hr]
  exact checkAlreadyVersioned_appended t ht s hs hnl

/-- Witness for C6: the amended theorem applied to the tag `/v1.1` appended
to `http://x`. -/
theorem C6_already_versioned_resolution_witness :
    checkAlreadyVersioned ("http://x" ++ "/v1.1") = some ("http://x" ++ "/v1.1") :=
  (C6_already_versioned_resolution "/v1.1" (by decide) "http://x" (by decide)
    (by decide)).1

/-- C8: `count_structures` performs exactly one query-executor call, with
`page_limit=1` and the empty field projection `response_fields=""`, and
returns the `meta.data_returned` field of whatever response the provider
gives — never anything computed from the page's records (the result depends
on the response only through `data_returned`). -/
theorem C8_count_structures_single_call
    (respond : String → List (String × String) → OptimadeResponse)
    (base_url filter_str : String) :
    ∃ url q,
      assembledQuery (QueryArgs.mk base_url none (.pystr filter_str) none none (some "")
          none (some 1) none none) = .ok (url, q) ∧
      count_structures respond base_url filter_str =
        .ok ((respond url q).data_returned, [q]) ∧
      ("page_limit", "1") ∈ q ∧ ("response_fields", "") ∈ q := by
  have h1 : toString (1 : Int) = "1" := rfl
  cases hb : filter_str == "" with
  | true =>
    have he : filter_str = "" := beq_iff_eq.mp hb
    subst he
    exact ⟨_, _, rfl, rfl, by simp [h1], by simp⟩
  | false =>
    have ht : PyVal.truthy (.pystr filter_str) = true := by
      simp [PyVal.truthy, bne, hb]
    simp only [count_structures, assembledQuery, ht]
    exact ⟨_, _, rfl, rfl, by simp [h1], by simp⟩

/-- C9, counterexample.  The non-string filter value `None` is falsy, so the
`TypeError` branch is never reached (optimade.py line 102 tests truthiness
first): the call succeeds with no `filter` parameter and the request is then
issued, instead of raising a usage error. -/
theorem C9_counterexample :
    assembledQuery (QueryArgs.mk "http://x" none .pynone none none none none
        (some 1) none none) =
      .ok ("http://x/structures",
        [("response_format", "json"),
         ("response_fields", String.intercalate "," default_response_fields),
         ("page_limit", "1")]) := rfl

/-- C9 (amended): a truthy non-string filter raises the `TypeError` before
the request is issued; a falsy filter value (the empty string, `None`, `0`,
an empty dict) is silently skipped and no `filter` parameter is included;
and a nonempty filter string is included as the `filter` parameter. -/
theorem C9_filter_validation :
    (∀ (v : PyVal) (b : String), v.truthy = true → v.isStr = false →
      assembledQuery (QueryArgs.mk b none v none none none none (some 1) none none) =
        .error "'filter_str' must be either a dict or a str") ∧
    (∀ (v : PyVal) (b : String), v.truthy = false →
      ∃ url q,
        assembledQuery (QueryArgs.mk b none v none none none none (some 1) none none) =
          .ok (url, q) ∧ ∀ val, ("filter", val) ∉ q) ∧
    (∀ (s b : String), s ≠ "" →
      ∃ url q,
        assembledQuery (QueryArgs.mk b none (.pystr s) none none none none (some 1)
            none none) = .ok (url, q) ∧ ("filter", s) ∈ q) := by
  refine ⟨?_, ?_, ?_⟩
  · intro v b ht hns
    cases v with
    | pynone => simp [PyVal.truthy] at ht
    | pystr s => simp [PyVal.isStr] at hns
    | pyint n => simp [assembledQuery, ht]
    | pydict l => simp [assembledQuery, ht]
  · intro v b ht
    simp only [assembledQuery, ht]
    refine ⟨_, _, rfl, ?_⟩
    intro val
    simp
  · intro s b hs
    have ht : PyVal.truthy (.pystr s) = true := by
      simp [PyVal.truthy, bne_iff_ne, hs]
    simp only [assembledQuery, ht]
    refine ⟨_, _, rfl, ?_⟩
    simp

/-- Witness for C9: the truthy non-string filter `1` raises the `TypeError`
before any request. -/
theorem C9_filter_validation_witness :
    assembledQuery (QueryArgs.mk "http://x" none (.pyint 1) none none none none
        (some 1) none none) = .error "'filter_str' must be either a dict or a str" :=
  C9_filter_validation.1 (.pyint 1) "http://x" (by decide) rfl

/-- C10: there is a base URL that does not end in any known version tag (with
or without a trailing slash) yet is returned unchanged without any network
request, because the unescaped dot of the interpolated tag matches any
character: `http://x/v1.1/y/v101` contains the literal `/v1.1` (passing the
substring test) and its ending `/v101` matches the pattern `.+/v1.1$` with
the dot as a wildcard. -/
theorem C10_dot_wildcard_early_return :
    ∃ b : String, endsWithTag b = false ∧ checkAlreadyVersioned b = some b :=
  ⟨"http://x/v1.1/y/v101", rfl, rfl⟩
